import Mathlib

/-!
Verification of the calcu unit-aware calculator (Go sources) against its
natural-language specification.  The Go code is shallowly embedded: exact
decimals become `Rat`, fallible operations return `Except String _`, the
process-global unit catalog becomes an explicit `UnitManager` argument, and
Go maps become association lists.  The measure-value algebra follows
src/unnamed/part_003 (the version the claims cite), the unit catalog and
lexer follow src/unit.go, and the tree-walking interpreter follows
src/intrp.go.  The embedded unit table (unit.csv) and the helper
startWithSeparator are not present under src/, so they are modelled from
the spec where marked.
-/

namespace Calcu

/-- Dimension enumeration, from src/unit.go. -/
inductive Dimension where
  | DimInvalid
  | DimEnergy
  | DimMass
  | DimVolume
  | DimTime
  | DimLength
deriving DecidableEq

/-- Atomic unit record, from src/unit.go (`MetaUnit`).  The exact decimal
fields `siFactor`/`siOffset` are embedded as rationals. -/
structure MetaUnit where
  name : String
  label : String
  dimension : Dimension
  si : String
  siFactor : Rat
  siOffset : Rat
deriving DecidableEq

/-- Binary compound unit, from src/unit.go (`CompoundUnit`). -/
structure CompoundUnit where
  Numerator : MetaUnit
  Denominator : MetaUnit
  SiFactor : Rat
deriving DecidableEq

/-- Constructor of compound units, from src/unit.go (`newCompoundUnit`):
the combined factor is the quotient of the member factors. -/
def newCompoundUnit (num den : MetaUnit) : CompoundUnit :=
  { Numerator := num, Denominator := den, SiFactor := num.siFactor / den.siFactor }

/-- The `Unit` capability set of src/unit.go, as a sum of its two variants. -/
inductive Unit where
  | meta (u : MetaUnit)
  | comp (c : CompoundUnit)
deriving DecidableEq

/-- Unit name accessor (src/unit.go `Name`). -/
def Unit.name : Unit → String
  | .meta u => u.name
  | .comp c => c.Numerator.name ++ "/" ++ c.Denominator.name

/-- Unit dimension accessor (src/unit.go `Dimension`); compound units
report `DimInvalid` at top level. -/
def Unit.dimension : Unit → Dimension
  | .meta u => u.dimension
  | .comp _ => Dimension.DimInvalid

/-- Meta/compound discriminator (src/unit.go `IsMeta`). -/
def Unit.isMeta : Unit → Bool
  | .meta _ => true
  | .comp _ => false

/-- SI name accessor (src/unit.go `SiName`). -/
def Unit.siName : Unit → String
  | .meta u => u.si
  | .comp c => c.Numerator.si ++ "/" ++ c.Denominator.si

/-- SI factor/offset accessor (src/unit.go `SiFactors`); a compound unit
has offset zero. -/
def Unit.siFactors : Unit → Rat × Rat
  | .meta u => (u.siFactor, u.siOffset)
  | .comp c => (c.SiFactor, 0)

/-- Modelled from the spec: `startWithSeparator` is called by
`staticum.Peek` (src/unit.go) but its definition is not under src/.
The spec's glossary defines a separator as end-of-input or a character
outside `[A-Za-z0-9_]`. -/
def startWithSeparator : List Char → Bool
  | [] => true
  | c :: _ => !(c.isAlphanum || c = '_')

/-- Longest-first unit lookup, from src/unit.go (`staticum.Peek`).
`names` is the catalog's flat name array, sorted by descending length at
catalog construction; the parallel `ulens` array of the source is the
mapped lengths.  Returns the length of the first (hence longest) name
that is a prefix of `s` and is followed by a separator. -/
def Peek (names : List (List Char)) (s : List Char) : Option Nat :=
  match names with
  | [] => none
  | name :: rest =>
    if s.length < name.length then Peek rest s
    else if s.take name.length = name ∧ startWithSeparator (s.drop name.length) = true then
      some name.length
    else Peek rest s

/-- The unit catalog interface, from src/unit.go (`UnitManager` as
implemented by `staticum`): the name-keyed map `m` becomes `lookup`
and the flat sorted name array becomes `names`. -/
structure UnitManager where
  names : List (List Char)
  lookup : String → Option Unit

/-- Exact-key membership test, from src/unit.go (`staticum.IsUnit`). -/
def UnitManager.IsUnit (um : UnitManager) (s : String) : Bool :=
  (um.lookup s).isSome

/-- Measure value, from src/unnamed/part_003: an exact decimal, a unit
name and the unitless flag.  The `um` field of the Go struct is always
the global catalog and is passed explicitly to the operations instead. -/
structure MeasureValue where
  value : Rat
  unit : String
  unitless : Bool
deriving DecidableEq

/-- Operand-negotiation record, from src/unnamed/part_003 (`mvopstat`). -/
structure mvopstat where
  unitless : Bool
  lmv : MeasureValue
  rmv : MeasureValue
  targetUnit : String
deriving DecidableEq

/-- Conversion to SI, from src/unnamed/part_003 (`MeasureValue.toSi`):
value becomes value*factor+offset, the unit becomes the SI name and the
result is never unitless. -/
def toSi (mv : MeasureValue) (mvUnit : Unit) : MeasureValue :=
  { value := mv.value * (Unit.siFactors mvUnit).1 + (Unit.siFactors mvUnit).2
    unit := Unit.siName mvUnit
    unitless := false }

/-- Conversion to a named target unit, from src/unnamed/part_003
(`MeasureValue.To`): identity copy on equal names, otherwise route
through SI and divide by the target factor and subtract its offset. -/
def To (um : UnitManager) (mv : MeasureValue) (targetUnitName : String) :
    Except String MeasureValue :=
  if mv.unit = targetUnitName then
    .ok { value := mv.value, unit := mv.unit, unitless := mv.unitless }
  else
    match um.lookup targetUnitName with
    | none => .error ("target unit " ++ targetUnitName ++ " not found")
    | some tunit =>
      match um.lookup mv.unit with
      | none => .error ("unit " ++ mv.unit ++ " not found")
      | some mvunit =>
        let si := toSi mv mvunit
        if si.unit = Unit.name tunit then .ok si
        else
          .ok { value := si.value / (Unit.siFactors tunit).1 - (Unit.siFactors tunit).2
                unit := Unit.name tunit
                unitless := false }

/-- Addition negotiation, from src/unnamed/part_003 (`parseAdd`). -/
def parseAdd (um : UnitManager) (mv other : MeasureValue) : Option mvopstat :=
  if mv.unitless && !other.unitless then none
  else if !mv.unitless && other.unitless then none
  else if mv.unitless && other.unitless then
    some { unitless := true, lmv := mv, rmv := other, targetUnit := "" }
  else
    match um.lookup mv.unit with
    | none => none
    | some u =>
      match um.lookup other.unit with
      | none => none
      | some ou =>
        if Unit.dimension u ≠ Unit.dimension ou then none
        else
          some { unitless := false, lmv := toSi mv u, rmv := toSi other ou
                 targetUnit := (toSi mv u).unit }

/-- Subtraction negotiation, from src/unnamed/part_003 (`parseSub`):
identical to addition. -/
def parseSub (um : UnitManager) (mv other : MeasureValue) : Option mvopstat :=
  parseAdd um mv other

/-- Multiplication negotiation, from src/unnamed/part_003 (`parseMul`):
a unitless side acts as a coefficient with no unit lookup; two metas need
equal dimension; two compounds need matching numerator and denominator
dimensions; a meta against a compound needs the compound's denominator
dimension to equal the meta's dimension, and targets the SI name of the
compound's numerator. -/
def parseMul (um : UnitManager) (mv other : MeasureValue) : Option mvopstat :=
  if mv.unitless && other.unitless then
    some { unitless := true, lmv := mv, rmv := other, targetUnit := "" }
  else if mv.unitless && !other.unitless then
    some { unitless := false, lmv := other, rmv := mv, targetUnit := other.unit }
  else if !mv.unitless && other.unitless then
    some { unitless := false, lmv := mv, rmv := other, targetUnit := mv.unit }
  else
    match um.lookup mv.unit with
    | none => none
    | some u =>
      match um.lookup other.unit with
      | none => none
      | some ou =>
        match u, ou with
        | .meta mu1, .meta mu2 =>
          if mu1.dimension ≠ mu2.dimension then none
          else
            some { unitless := false, lmv := toSi mv u, rmv := toSi other ou
                   targetUnit := (toSi mv u).unit }
        | .comp cu1, .comp cu2 =>
          if cu1.Numerator.dimension ≠ cu2.Numerator.dimension then none
          else if cu1.Denominator.dimension ≠ cu2.Denominator.dimension then none
          else
            some { unitless := false, lmv := toSi mv u, rmv := toSi other ou
                   targetUnit := (toSi mv u).unit }
        | .meta mu, .comp cu =>
          if cu.Denominator.dimension ≠ mu.dimension then none
          else
            some { unitless := false, lmv := toSi mv (.meta mu)
                   rmv := toSi other (.comp cu)
                   targetUnit := cu.Numerator.si }
        | .comp cu, .meta mu =>
          if cu.Denominator.dimension ≠ mu.dimension then none
          else
            some { unitless := false, lmv := toSi other (.meta mu)
                   rmv := toSi mv (.comp cu)
                   targetUnit := cu.Numerator.si }

/-- Division negotiation, from src/unnamed/part_003 (`parseDiv`): the
unitless-coefficient cases swap the operands into `lmv`/`rmv` exactly as
`parseMul` does; two metas and two compounds behave as in `parseMul`; a
meta against a compound is unsupported (a TODO in the source). -/
def parseDiv (um : UnitManager) (mv other : MeasureValue) : Option mvopstat :=
  if mv.unitless && other.unitless then
    some { unitless := true, lmv := mv, rmv := other, targetUnit := "" }
  else if mv.unitless && !other.unitless then
    some { unitless := false, lmv := other, rmv := mv, targetUnit := other.unit }
  else if !mv.unitless && other.unitless then
    some { unitless := false, lmv := mv, rmv := other, targetUnit := mv.unit }
  else
    match um.lookup mv.unit with
    | none => none
    | some u =>
      match um.lookup other.unit with
      | none => none
      | some ou =>
        match u, ou with
        | .meta mu1, .meta mu2 =>
          if mu1.dimension ≠ mu2.dimension then none
          else
            some { unitless := false, lmv := toSi mv u, rmv := toSi other ou
                   targetUnit := (toSi mv u).unit }
        | .comp cu1, .comp cu2 =>
          if cu1.Numerator.dimension ≠ cu2.Numerator.dimension then none
          else if cu1.Denominator.dimension ≠ cu2.Denominator.dimension then none
          else
            some { unitless := false, lmv := toSi mv u, rmv := toSi other ou
                   targetUnit := (toSi mv u).unit }
        | _, _ => none

/-- Addition, from src/unnamed/part_003 (`MeasureValue.Add`). -/
def Add (um : UnitManager) (mv other : MeasureValue) : Except String MeasureValue :=
  match parseAdd um mv other with
  | none => .error ("(" ++ mv.unit ++ ")+(" ++ other.unit ++ ") is unsupported")
  | some mvos =>
    .ok { value := mvos.lmv.value + mvos.rmv.value
          unit := mvos.targetUnit, unitless := mvos.unitless }

/-- Subtraction, from src/unnamed/part_003 (`MeasureValue.Sub`), which
negotiates through `parseAdd`. -/
def Sub (um : UnitManager) (mv other : MeasureValue) : Except String MeasureValue :=
  match parseAdd um mv other with
  | none => .error ("(" ++ mv.unit ++ ")-(" ++ other.unit ++ ") is unsupported")
  | some mvos =>
    .ok { value := mvos.lmv.value - mvos.rmv.value
          unit := mvos.targetUnit, unitless := mvos.unitless }

/-- Multiplication, from src/unnamed/part_003 (`MeasureValue.Mul`). -/
def Mul (um : UnitManager) (mv other : MeasureValue) : Except String MeasureValue :=
  match parseMul um mv other with
  | none => .error ("(" ++ mv.unit ++ ")*(" ++ other.unit ++ ") is unsupported")
  | some mvos =>
    .ok { value := mvos.lmv.value * mvos.rmv.value
          unit := mvos.targetUnit, unitless := mvos.unitless }

/-- Division, from src/unnamed/part_003 (`MeasureValue.Div`).  The Go
decimal library panics on a zero divisor; rational division by zero
yields zero here, and no claim exercises a zero divisor. -/
def Div (um : UnitManager) (mv other : MeasureValue) : Except String MeasureValue :=
  match parseDiv um mv other with
  | none => .error ("(" ++ mv.unit ++ ")/(" ++ other.unit ++ ") is unsupported")
  | some mvos =>
    .ok { value := mvos.lmv.value / mvos.rmv.value
          unit := mvos.targetUnit, unitless := mvos.unitless }

/-- Unary negation, from src/unnamed/part_003 (`MeasureValue.Neg`): only
the value field is carried over (negated); unit and unitless flag take
the Go zero values. -/
def Neg (mv : MeasureValue) : MeasureValue :=
  { value := -mv.value, unit := "", unitless := false }

/-! Lexer, from the second compilation unit of src/unit.go.  The three
anchored regular expressions are embedded as prefix matchers with the
leftmost-first greedy semantics that Go's regexp gives them. -/

/-- Token kinds of the yacc grammar; `RAW` stands for the raw-byte
fallback whose `lval.token` is the `invalid` marker. -/
inductive Tok where
  | IDENT
  | NUM
  | UNIT
  | LITERALSTR
  | LITERALMV
  | RAW
deriving DecidableEq

/-- Space predicate, from src/unit.go (`isSpace`). -/
def isSpace (c : Char) : Bool :=
  c = ' ' || c = '\t' || c = '\n'

/-- Prefix matcher for the IDENT rule `[_a-zA-Z][_a-zA-Z0-9]*`. -/
def matchIdent : List Char → Option (List Char)
  | [] => none
  | c :: rest =>
    if c.isAlpha || c = '_' then
      some (c :: rest.takeWhile (fun d => d.isAlphanum || d = '_'))
    else none

/-- Mantissa part of the NUM rule `[0-9]*\.?[0-9]+`: a maximal digit run,
then a dot only when at least one digit follows it (otherwise the
backtracking regex drops the dot). -/
def matchNumCore (s : List Char) : Option (List Char) :=
  let d1 := s.takeWhile Char.isDigit
  let r1 := s.drop d1.length
  match r1 with
  | '.' :: r2 =>
    let d2 := r2.takeWhile Char.isDigit
    if d2 ≠ [] then some (d1 ++ '.' :: d2)
    else if d1 ≠ [] then some d1
    else none
  | _ => if d1 ≠ [] then some d1 else none

/-- Optional exponent part `([eE][-+]?[0-9]+)?` appended to a mantissa
match `m`; the exponent is taken only when complete. -/
def matchNumExp (m s : List Char) : List Char :=
  match s with
  | e :: r =>
    if e = 'e' || e = 'E' then
      match r with
      | c :: r2 =>
        if c = '+' || c = '-' then
          let d := r2.takeWhile Char.isDigit
          if d ≠ [] then m ++ e :: c :: d else m
        else
          let d := r.takeWhile Char.isDigit
          if d ≠ [] then m ++ e :: d else m
      | [] => m
    else m
  | [] => m

/-- Prefix matcher for the NUM rule `[0-9]*\.?[0-9]+([eE][-+]?[0-9]+)?`. -/
def matchNum (s : List Char) : Option (List Char) :=
  match matchNumCore s with
  | none => none
  | some m => some (matchNumExp m (s.drop m.length))

/-- Prefix matcher for the LITERALSTR rule `"[^"]*"`. -/
def matchLiteralStr : List Char → Option (List Char)
  | [] => none
  | c :: rest =>
    if c = '"' then
      let inner := rest.takeWhile (fun d => d ≠ '"')
      match rest.drop inner.length with
      | '"' :: _ => some ('"' :: inner ++ ['"'])
      | _ => none
    else none

/-- Whole-input tokenization, from src/unit.go (`lexer.Lex` iterated as
`NewMeasureValueFromString` does): skip spaces, try the unit `Peek`
first (stripping a bracketed form), then the IDENT/NUM/LITERALSTR rules
in order, else consume one raw byte (a NUL byte is the yacc eof and
stops the scan).  A quoted literal is reclassified by `lexLiteralStr`
below, whose measure-value reparse recurses into this function; the
`fuel` argument (any value above the input length) makes that recursion
structural. -/
def lexAll (um : UnitManager) : Nat → List Char → List (Tok × List Char)
  | 0, _ => []
  | Nat.succ fuel, s0 =>
    let s := s0.dropWhile isSpace
    match s with
    | [] => []
    | c :: rest =>
      match Peek um.names s with
      | some n =>
        let str := s.take n
        let str2 := if str.head? = some '(' then (str.drop 1).dropLast else str
        (Tok.UNIT, str2) :: lexAll um fuel (s.drop n)
      | none =>
        match matchIdent s with
        | some m => (Tok.IDENT, m) :: lexAll um fuel (s.drop m.length)
        | none =>
          match matchNum s with
          | some m => (Tok.NUM, m) :: lexAll um fuel (s.drop m.length)
          | none =>
            match matchLiteralStr s with
            | some m =>
              let inner := (m.drop 1).dropLast
              let t :=
                if um.IsUnit (String.mk inner) then Tok.UNIT
                else if
                  (let lvals := (lexAll um fuel inner).filter (fun lv => lv.1 ≠ Tok.RAW)
                   lvals.length = 2 ∧
                     ((lvals.get? 0).map Prod.fst = some Tok.NUM ∨
                      (lvals.get? 1).map Prod.fst = some Tok.UNIT) : Prop)
                then Tok.LITERALMV
                else Tok.LITERALSTR
              (t, inner) :: lexAll um fuel (s.drop m.length)
            | none =>
              if c = Char.ofNat 0 then []
              else (Tok.RAW, [c]) :: lexAll um fuel rest

/-- Tokens of an input as collected by `NewMeasureValueFromString`
(src/unit.go): every emitted token whose `lval.token` is not the
`invalid` raw-byte marker. -/
def mvLvals (um : UnitManager) (fuel : Nat) (s : List Char) : List (Tok × List Char) :=
  (lexAll um fuel s).filter (fun lv => lv.1 ≠ Tok.RAW)

/-- Success condition of `NewMeasureValueFromString` (src/unit.go): the
input lexes to exactly two kept tokens and the first is NUM or the
second is UNIT (the source tests the negation with De Morgan's `&&`). -/
def NewMeasureValueFromStringOk (um : UnitManager) (fuel : Nat) (s : List Char) : Prop :=
  (mvLvals um fuel s).length = 2 ∧
    (((mvLvals um fuel s).get? 0).map Prod.fst = some Tok.NUM ∨
     ((mvLvals um fuel s).get? 1).map Prod.fst = some Tok.UNIT)

instance (um : UnitManager) (fuel : Nat) (s : List Char) :
    Decidable (NewMeasureValueFromStringOk um fuel s) := by
  unfold NewMeasureValueFromStringOk
  infer_instance

/-- Quoted-literal reclassification, from src/unit.go
(`lexer.lexLiteralStr`): a known unit name lexes as UNIT, else a
successful measure-value parse as LITERALMV, else LITERALSTR. -/
def lexLiteralStr (um : UnitManager) (fuel : Nat) (s : List Char) : Tok :=
  if um.IsUnit (String.mk s) then Tok.UNIT
  else if NewMeasureValueFromStringOk um fuel s then Tok.LITERALMV
  else Tok.LITERALSTR

/-- Modelled from the spec: the spec's reclassification rule says a
quoted literal becomes LITERALMV when the inner text "parses as a valid
measure-value (number followed by a unit)".  Read literally, the inner
text splits into a complete NUM-rule numeric literal followed by a known
unit name.  This definition exists to be compared with the source's
`NewMeasureValueFromStringOk`. -/
def specNumberThenUnit (um : UnitManager) (s : List Char) : Bool :=
  (List.range (s.length + 1)).any fun i =>
    decide (matchNum (s.take i) = some (s.take i)) && um.IsUnit (String.mk (s.drop i))

/-! AST and tree-walking interpreter, from src/unnamed/part_003 (node
variants) and src/intrp.go (the visitors).  The reflection-based host
bridge is abstracted: a registered user function becomes a Lean function
from marshalled arguments to an optional measure value or an error; a
panic trapped by `Interpreter.call` surfaces exactly like a returned
error (in both cases `Interpret` stops with an error and no binding is
written), so both are modelled by the error case. -/

/-- Node type tags, from src/unnamed/part_003. -/
inductive NodeType where
  | NodeTypeMV
  | NodeTypeLiteralStr
  | NodeTypeVar
  | NodeTypeBinaryExpr
  | NodeTypeUnaryExpr
  | NodeTypeFuncCall
  | NodeTypeList
  | NodeTypeAssignment
deriving DecidableEq

/-- AST nodes, from src/unnamed/part_003: measure literal, string
literal, variable, binary and unary expressions, call, assignment. -/
inductive Node where
  | mv (m : MeasureValue)
  | literalStr (s : String)
  | var (name : String)
  | binary (op : String) (lhs rhs : Node)
  | unary (expr : Node)
  | funcCall (fn : String) (args : List Node)
  | assignment (varname : String) (node : Node)

/-- Type tag accessor, the `Type()` method of each node variant. -/
def Node.typeOf : Node → NodeType
  | .mv _ => .NodeTypeMV
  | .literalStr _ => .NodeTypeLiteralStr
  | .var _ => .NodeTypeVar
  | .binary _ _ _ => .NodeTypeBinaryExpr
  | .unary _ => .NodeTypeUnaryExpr
  | .funcCall _ _ => .NodeTypeFuncCall
  | .assignment _ _ => .NodeTypeAssignment

/-- The interpreter's variable environment (`Interpreter.mvvars`), a Go
map embedded as an association list where insertion conses and lookup
takes the most recent binding. -/
def Env := List (String × MeasureValue)

/-- Arithmetic-expression evaluation, from src/intrp.go
(`visitAExpr`/`visitBinaryExpr`/`visitUnaryExpr`): a measure literal is
itself; a variable is looked up (error when unbound); a binary node
evaluates both sides then dispatches on the operator — where the source
maps `/` to `Sub`; a unary node negates; everything else is
unsupported. -/
def visitAExpr (um : UnitManager) (env : Env) : Node → Except String MeasureValue
  | .mv m => .ok m
  | .var name =>
    match List.lookup name env with
    | some value => .ok value
    | none => .error ("found undefined var %s" ++ name)
  | .binary op l r =>
    match visitAExpr um env l with
    | .error e => .error e
    | .ok lhs =>
      match visitAExpr um env r with
      | .error e => .error e
      | .ok rhs =>
        if op = "+" then Add um lhs rhs
        else if op = "-" then Sub um lhs rhs
        else if op = "*" then Mul um lhs rhs
        else if op = "/" then Sub um lhs rhs
        else .error ("unsupported op " ++ op)
  | .unary e =>
    match visitAExpr um env e with
    | .error err => .error err
    | .ok ans => .ok (Neg ans)
  | _ => .error "found unsupported expr node"

/-- Marshalled call argument: a raw string, a variable AST node kept
un-evaluated (kernel calls), or a measure value that may be the nil
reference (user calls look the variable up without an existence
check). -/
inductive FuncArg where
  | str (s : String)
  | varnode (name : String)
  | mvval (m : Option MeasureValue)
deriving DecidableEq

/-- Abstracted table of registered user functions: the reflection bridge
of src/intrp.go reduced to its call behaviour. -/
def UserFuncs := String → Option (List FuncArg → Except String (Option MeasureValue))

/-- Interpreter state: variable environment, output set and the
`lastError` slot, from src/intrp.go (`Interpreter`). -/
structure IState where
  mvvars : Env
  outvars : Env
  lastError : Option String

/-- Kernel-call argument marshalling, from src/intrp.go
(`visitKFuncArg`): string literals pass raw, variables pass as the AST
node itself, everything else evaluates as an arithmetic expression. -/
def visitKFuncArg (um : UnitManager) (env : Env) (a : Node) : Except String FuncArg :=
  match a with
  | .literalStr s => .ok (.str s)
  | .var name => .ok (.varnode name)
  | a =>
    match visitAExpr um env a with
    | .error e => .error e
    | .ok m => .ok (.mvval (some m))

/-- User-call argument marshalling, from src/intrp.go (`visitFuncArg`):
variables are looked up and passed as the bound value or the nil
reference. -/
def visitFuncArg (um : UnitManager) (env : Env) (a : Node) : Except String FuncArg :=
  match a with
  | .literalStr s => .ok (.str s)
  | .var name => .ok (.mvval (List.lookup name env))
  | a =>
    match visitAExpr um env a with
    | .error e => .error e
    | .ok m => .ok (.mvval (some m))

/-- One `print` argument, from src/intrp.go (`Interpreter.print`): a
variable bound in the environment is copied into the output set, an
unbound one is skipped, and any non-variable argument records a
`lastError`. -/
def printArg (st : IState) : FuncArg → IState
  | .varnode name =>
    match List.lookup name st.mvvars with
    | some value => { st with outvars := (name, value) :: st.outvars }
    | none => st
  | _ => { st with lastError := some "expect variable as the arg of print" }

/-- Call dispatch, from src/intrp.go (`visitFuncCall`): the kernel
`print` marshals with `visitKFuncArg` and runs its side effects; a user
call marshals with `visitFuncArg` and invokes the registered function,
whose error (or trapped panic, see above) propagates; an unregistered
name is an error. -/
def visitFuncCall (um : UnitManager) (fns : UserFuncs) (st : IState)
    (fn : String) (args : List Node) : Except String (IState × Option MeasureValue) :=
  if fn = "print" then
    match args.mapM (visitKFuncArg um st.mvvars) with
    | .error e => .error e
    | .ok kargs => .ok (kargs.foldl printArg st, none)
  else
    match fns fn with
    | none => .error ("unknow func: " ++ fn)
    | some f =>
      match args.mapM (visitFuncArg um st.mvvars) with
      | .error e => .error e
      | .ok uargs =>
        match f uargs with
        | .error e => .error e
        | .ok r => .ok (st, r)

/-- Assignment, from src/intrp.go (`visitAssignment`): a call on the
right-hand side binds its value only when one is returned; any other
node evaluates as an arithmetic expression and the result is bound.  An
evaluation error returns before any write to the environment. -/
def visitAssignment (um : UnitManager) (fns : UserFuncs) (st : IState)
    (varname : String) (node : Node) : Except String IState :=
  match node with
  | .funcCall fn args =>
    match visitFuncCall um fns st fn args with
    | .error e => .error e
    | .ok (st', some m) => .ok { st' with mvvars := (varname, m) :: st'.mvvars }
    | .ok (st', none) => .ok st'
  | node =>
    match visitAExpr um st.mvvars node with
    | .error e => .error e
    | .ok ans => .ok { st with mvvars := (varname, ans) :: st.mvvars }

/-- Root dispatch, from src/intrp.go (`visitRoot`): assignments and
calls are executed, anything else is ignored. -/
def visitRoot (um : UnitManager) (fns : UserFuncs) (st : IState) :
    Node → Except String IState
  | .assignment varname node => visitAssignment um fns st varname node
  | .funcCall fn args =>
    match visitFuncCall um fns st fn args with
    | .error e => .error e
    | .ok (st', _) => .ok st'
  | _ => .ok st

/-- Line loop of src/intrp.go (`Interpreter.Interpret`) over already
parsed statements: each root is visited, a returned error or a recorded
`lastError` stops the run immediately, and the output set is returned at
the end. -/
def Interpret (um : UnitManager) (fns : UserFuncs) : IState → List Node → Except String Env
  | st, [] => .ok st.outvars
  | st, root :: rest =>
    match visitRoot um fns st root with
    | .error e => .error e
    | .ok st' =>
      match st'.lastError with
      | some e => .error e
      | none => Interpret um fns st' rest

/-! Concrete catalog instance.  The embedded unit table unit.csv is not
under src/ (the spec treats its contents as opaque input data), so a
small catalog is modelled from the units the spec and its scenarios
name. -/

/-- Modelled from the spec: the kilogram, the SI reference unit of Mass
(glossary), with identity conversion. -/
def kgU : MetaUnit :=
  { name := "kg", label := "Kilogram", dimension := .DimMass
    si := "kg", siFactor := 1, siOffset := 0 }

/-- Modelled from the spec: the megagram; one Mg is 1000 kg. -/
def MgU : MetaUnit :=
  { name := "Mg", label := "Megagram", dimension := .DimMass
    si := "kg", siFactor := 1000, siOffset := 0 }

/-- Modelled from the spec: the gigagram; one Gg is 1000000 kg
(src/unnamed/part_003 states this factor in the `newCompoundUnit`
commentary). -/
def GgU : MetaUnit :=
  { name := "Gg", label := "Gigagram", dimension := .DimMass
    si := "kg", siFactor := 1000000, siOffset := 0 }

/-- Modelled from the spec: the cubic metre, the SI reference unit of
Volume, with identity conversion. -/
def m3U : MetaUnit :=
  { name := "m3", label := "Cubic metre", dimension := .DimVolume
    si := "m3", siFactor := 1, siOffset := 0 }

/-- Modelled from the spec: the thousand-cubic-metres unit `10^3m3`
(its factor of 1000 is forced by scenario S6: 2kg/m3 * 2(10^3m3) =
4000kg). -/
def t3m3U : MetaUnit :=
  { name := "10^3m3", label := "Thousand cubic metres", dimension := .DimVolume
    si := "m3", siFactor := 1000, siOffset := 0 }

/-- Modelled from the spec: the metre, the SI reference unit of
Length. -/
def mU : MetaUnit :=
  { name := "m", label := "Metre", dimension := .DimLength
    si := "m", siFactor := 1, siOffset := 0 }

/-- The kg/m3 compound, as synthesized at catalog construction. -/
def kgm3C : CompoundUnit := newCompoundUnit kgU m3U

/-- The Gg/10^3m3 compound, as synthesized at catalog construction. -/
def Ggt3m3C : CompoundUnit := newCompoundUnit GgU t3m3U

/-- Name-keyed lookup of the concrete catalog, mirroring the map built
by `newStaticUintManager` (src/unit.go) over the modelled rows. -/
def specLookup (s : String) : Option Unit :=
  if s = "kg" then some (.meta kgU)
  else if s = "Mg" then some (.meta MgU)
  else if s = "Gg" then some (.meta GgU)
  else if s = "m3" then some (.meta m3U)
  else if s = "10^3m3" then some (.meta t3m3U)
  else if s = "m" then some (.meta mU)
  else if s = "kg/m3" then some (.comp kgm3C)
  else if s = "Gg/10^3m3" then some (.comp Ggt3m3C)
  else none

/-- The flat name array of the concrete catalog, bracketed alternates
included, sorted by descending length as `newStaticUintManager` does. -/
def specNames : List (List Char) :=
  [ "(Gg/10^3m3)".data, "Gg/10^3m3".data, "(10^3m3)".data, "10^3m3".data
  , "kg/m3".data, "kg".data, "Mg".data, "Gg".data, "m3".data, "m".data ]

/-- The concrete catalog instance used by witnesses. -/
def specUm : UnitManager := { names := specNames, lookup := specLookup }

/-! Claim theorems. -/

/-- C8: `Neg` returns a measure value whose value is the negation of the
operand's and whose unit field is empty with the unitless flag false,
regardless of the operand's unit and unitless flag. -/
theorem c8_neg_clears_unit (mv : MeasureValue) :
    (Neg mv).value = -mv.value ∧ (Neg mv).unit = "" ∧ (Neg mv).unitless = false :=
  ⟨rfl, rfl, rfl⟩

/-- C1: the interpreter's `/` case in `visitBinaryExpr` (src/intrp.go)
dispatches to `Sub`, not `Div`: evaluating the binary expression
`6 / 3` over unitless operands yields the subtraction result 3, while
the measure-value `Div` operation the claim names yields 2. -/
theorem c1_slash_dispatches_to_sub :
    visitAExpr specUm [] (.binary "/" (.mv ⟨6, "", true⟩) (.mv ⟨3, "", true⟩)) =
      Sub specUm ⟨6, "", true⟩ ⟨3, "", true⟩ ∧
    visitAExpr specUm [] (.binary "/" (.mv ⟨6, "", true⟩) (.mv ⟨3, "", true⟩)) =
      .ok ⟨3, "", true⟩ ∧
    Div specUm ⟨6, "", true⟩ ⟨3, "", true⟩ = .ok ⟨2, "", true⟩ ∧
    (3 : Rat) ≠ 2 := by
  refine ⟨by with_unfolding_all rfl, by with_unfolding_all rfl,
    by with_unfolding_all rfl, by with_unfolding_all decide⟩

/-- C3: multiplication with exactly one unitless operand treats the
unitless side as a coefficient, in both operand orders: the result value
is the product of the two values and the result unit is the
unit-bearing side's unit verbatim, with no catalog lookup or SI
conversion involved. -/
theorem c3_mul_unitless_coefficient (um : UnitManager) (k x : MeasureValue)
    (hk : k.unitless = true) (hx : x.unitless = false) :
    Mul um k x = .ok ⟨k.value * x.value, x.unit, false⟩ ∧
    Mul um x k = .ok ⟨k.value * x.value, x.unit, false⟩ := by
  constructor <;> simp [Mul, parseMul, hk, hx, mul_comm]

/-- Witness for C3 at the concrete input 2 (unitless) times 3m3. -/
theorem c3_witness :
    Mul specUm ⟨2, "", true⟩ ⟨3, "m3", false⟩ = .ok ⟨6, "m3", false⟩ ∧
    Mul specUm ⟨3, "m3", false⟩ ⟨2, "", true⟩ = .ok ⟨6, "m3", false⟩ := by
  have h := c3_mul_unitless_coefficient specUm ⟨2, "", true⟩ ⟨3, "m3", false⟩ rfl rfl
  exact ⟨h.1.trans (by with_unfolding_all rfl), h.2.trans (by with_unfolding_all rfl)⟩

/-- C5 counterexample: dividing the unitless 1 by 2m3 succeeds with
value 2 (the code computes divisor over dividend after the swap), not
the claimed dividend-over-divisor value 1/2. -/
theorem c5_counterexample :
    Div specUm ⟨1, "", true⟩ ⟨2, "m3", false⟩ = .ok ⟨2, "m3", false⟩ ∧
    (2 : Rat) ≠ (1 : Rat) / 2 := by
  refine ⟨by with_unfolding_all rfl, by with_unfolding_all decide⟩

/-- C5 (amended): with exactly one unitless operand, division succeeds
and carries the unit-bearing side's unit verbatim; the value is
dividend over divisor when the divisor is unitless, but divisor over
dividend when the dividend is unitless, because the operand swap also
swaps the arithmetic. -/
theorem c5_div_one_unitless (um : UnitManager) (a b : MeasureValue) :
    (a.unitless = false → b.unitless = true →
      Div um a b = .ok ⟨a.value / b.value, a.unit, false⟩) ∧
    (a.unitless = true → b.unitless = false →
      Div um a b = .ok ⟨b.value / a.value, b.unit, false⟩) := by
  constructor <;> intro ha hb <;> simp [Div, parseDiv, ha, hb]

/-- Witness for C5 at 6m3 / 3 (unitless divisor) and 3 (unitless) / 6m3
(unitless dividend). -/
theorem c5_witness :
    Div specUm ⟨6, "m3", false⟩ ⟨3, "", true⟩ = .ok ⟨2, "m3", false⟩ ∧
    Div specUm ⟨3, "", true⟩ ⟨6, "m3", false⟩ = .ok ⟨2, "m3", false⟩ := by
  have h := c5_div_one_unitless specUm ⟨6, "m3", false⟩ ⟨3, "", true⟩
  have h2 := c5_div_one_unitless specUm ⟨3, "", true⟩ ⟨6, "m3", false⟩
  exact ⟨(h.1 rfl rfl).trans (by with_unfolding_all rfl),
    (h2.2 rfl rfl).trans (by with_unfolding_all rfl)⟩

/-- C2: Add and Sub negotiate identically: both operands unitless gives
a unitless result (sum respectively difference); exactly one unitless
operand fails with an error naming both operand units; two resolvable
units of differing dimension fail the same way; two units of the same
dimension succeed with both values converted to SI and the left
operand's SI unit name on the result. -/
theorem c2_add_sub_negotiation (um : UnitManager) (a b : MeasureValue) :
    (a.unitless = true → b.unitless = true →
      Add um a b = .ok ⟨a.value + b.value, "", true⟩ ∧
      Sub um a b = .ok ⟨a.value - b.value, "", true⟩) ∧
    (a.unitless = true → b.unitless = false →
      Add um a b = .error ("(" ++ a.unit ++ ")+(" ++ b.unit ++ ") is unsupported") ∧
      Sub um a b = .error ("(" ++ a.unit ++ ")-(" ++ b.unit ++ ") is unsupported")) ∧
    (a.unitless = false → b.unitless = true →
      Add um a b = .error ("(" ++ a.unit ++ ")+(" ++ b.unit ++ ") is unsupported") ∧
      Sub um a b = .error ("(" ++ a.unit ++ ")-(" ++ b.unit ++ ") is unsupported")) ∧
    (∀ u v, a.unitless = false → b.unitless = false →
      um.lookup a.unit = some u → um.lookup b.unit = some v →
      (Unit.dimension u ≠ Unit.dimension v →
        Add um a b = .error ("(" ++ a.unit ++ ")+(" ++ b.unit ++ ") is unsupported") ∧
        Sub um a b = .error ("(" ++ a.unit ++ ")-(" ++ b.unit ++ ") is unsupported")) ∧
      (Unit.dimension u = Unit.dimension v →
        Add um a b = .ok ⟨(a.value * (Unit.siFactors u).1 + (Unit.siFactors u).2) +
            (b.value * (Unit.siFactors v).1 + (Unit.siFactors v).2),
          Unit.siName u, false⟩ ∧
        Sub um a b = .ok ⟨(a.value * (Unit.siFactors u).1 + (Unit.siFactors u).2) -
            (b.value * (Unit.siFactors v).1 + (Unit.siFactors v).2),
          Unit.siName u, false⟩)) := by
  refine ⟨fun ha hb => ?_, fun ha hb => ?_, fun ha hb => ?_,
    fun u v ha hb hu hv => ⟨fun hdim => ?_, fun hdim => ?_⟩⟩
  · simp [Add, Sub, parseAdd, ha, hb]
  · simp [Add, Sub, parseAdd, ha, hb]
  · simp [Add, Sub, parseAdd, ha, hb]
  · simp [Add, Sub, parseAdd, ha, hb, hu, hv, hdim, toSi, Unit.siFactors, Unit.siName]
  · simp [Add, Sub, parseAdd, ha, hb, hu, hv, hdim, toSi, Unit.siFactors, Unit.siName]

/-- Witness for C2: 1kg + 2Mg and 1kg - 2Mg in SI, the S5 scenario
1kg + 1m failing across dimensions, and a unitless/unit mix failing. -/
theorem c2_witness :
    Add specUm ⟨1, "kg", false⟩ ⟨2, "Mg", false⟩ = .ok ⟨2001, "kg", false⟩ ∧
    Sub specUm ⟨1, "kg", false⟩ ⟨2, "Mg", false⟩ = .ok ⟨-1999, "kg", false⟩ ∧
    Add specUm ⟨1, "kg", false⟩ ⟨1, "m", false⟩ = .error "(kg)+(m) is unsupported" ∧
    Add specUm ⟨1, "", true⟩ ⟨1, "m", false⟩ = .error "()+(m) is unsupported" := by
  have h1 := (c2_add_sub_negotiation specUm ⟨1, "kg", false⟩ ⟨2, "Mg", false⟩).2.2.2
    (.meta kgU) (.meta MgU) rfl rfl (by with_unfolding_all rfl) (by with_unfolding_all rfl)
  have h2 := (c2_add_sub_negotiation specUm ⟨1, "kg", false⟩ ⟨1, "m", false⟩).2.2.2
    (.meta kgU) (.meta mU) rfl rfl (by with_unfolding_all rfl) (by with_unfolding_all rfl)
  have h3 := (c2_add_sub_negotiation specUm ⟨1, "", true⟩ ⟨1, "m", false⟩).2.1 rfl rfl
  exact ⟨((h1.2 (by decide)).1).trans (by with_unfolding_all rfl),
    ((h1.2 (by decide)).2).trans (by with_unfolding_all rfl),
    ((h2.1 (by decide)).1).trans (by with_unfolding_all rfl),
    h3.1.trans (by with_unfolding_all rfl)⟩

/-- C4: multiplying a meta-unit operand by a compound-unit operand whose
denominator dimension equals the meta's dimension succeeds in either
operand order: both sides are converted to SI and the result carries the
SI name of the compound's numerator; when the denominator dimension does
not match the meta's dimension the multiplication fails. -/
theorem c4_mul_meta_compound (um : UnitManager) (m c : MeasureValue)
    (mu : MetaUnit) (cu : CompoundUnit)
    (hm : m.unitless = false) (hc : c.unitless = false)
    (hmu : um.lookup m.unit = some (.meta mu))
    (hcu : um.lookup c.unit = some (.comp cu)) :
    (cu.Denominator.dimension = mu.dimension →
      Mul um m c = .ok ⟨(m.value * mu.siFactor + mu.siOffset) * (c.value * cu.SiFactor),
        cu.Numerator.si, false⟩ ∧
      Mul um c m = .ok ⟨(m.value * mu.siFactor + mu.siOffset) * (c.value * cu.SiFactor),
        cu.Numerator.si, false⟩) ∧
    (cu.Denominator.dimension ≠ mu.dimension →
      Mul um m c = .error ("(" ++ m.unit ++ ")*(" ++ c.unit ++ ") is unsupported") ∧
      Mul um c m = .error ("(" ++ c.unit ++ ")*(" ++ m.unit ++ ") is unsupported")) := by
  refine ⟨fun hdim => ⟨?_, ?_⟩, fun hdim => ⟨?_, ?_⟩⟩ <;>
    simp [Mul, parseMul, hm, hc, hmu, hcu, hdim, toSi, Unit.siFactors, Unit.siName]

/-- Witness for C4: the S6 scenario 2kg/m3 * 2(10^3m3) = 4000kg, its
operand swap, and the failing mix 2kg/m3 * 2m across dimensions. -/
theorem c4_witness :
    Mul specUm ⟨2, "kg/m3", false⟩ ⟨2, "10^3m3", false⟩ = .ok ⟨4000, "kg", false⟩ ∧
    Mul specUm ⟨2, "10^3m3", false⟩ ⟨2, "kg/m3", false⟩ = .ok ⟨4000, "kg", false⟩ ∧
    Mul specUm ⟨2, "kg/m3", false⟩ ⟨2, "m", false⟩ =
      .error "(kg/m3)*(m) is unsupported" := by
  have h1 := c4_mul_meta_compound specUm ⟨2, "10^3m3", false⟩ ⟨2, "kg/m3", false⟩
    t3m3U kgm3C rfl rfl (by with_unfolding_all rfl) (by with_unfolding_all rfl)
  have h2 := c4_mul_meta_compound specUm ⟨2, "m", false⟩ ⟨2, "kg/m3", false⟩
    mU kgm3C rfl rfl (by with_unfolding_all rfl) (by with_unfolding_all rfl)
  exact ⟨((h1.1 (by decide)).2).trans (by with_unfolding_all rfl),
    ((h1.1 (by decide)).1).trans (by with_unfolding_all rfl),
    ((h2.2 (by decide)).2).trans (by with_unfolding_all rfl)⟩

/-- C6: for a catalog meta unit `u` with zero offset whose SI reference
entry `w` (the catalog row named `u.si`) is the identity conversion —
the property the spec's glossary gives the canonical SI units — pushing
a value `v` through `toSi` and back through `To u.name` restores exactly
`v` with unit `u.name`. -/
theorem c6_si_round_trip (um : UnitManager) (u w : MetaUnit) (v : Rat)
    (hu : um.lookup u.name = some (.meta u))
    (hw : um.lookup u.si = some (.meta w))
    (hwname : w.name = u.si) (hwsi : w.si = w.name)
    (hwf : w.siFactor = 1) (hwo : w.siOffset = 0)
    (huo : u.siOffset = 0) (huf : u.siFactor ≠ 0) :
    To um (toSi ⟨v, u.name, false⟩ (.meta u)) u.name = .ok ⟨v, u.name, false⟩ := by
  have hto : toSi ⟨v, u.name, false⟩ (.meta u) = ⟨v * u.siFactor, u.si, false⟩ := by
    simp [toSi, Unit.siFactors, Unit.siName, huo]
  rw [hto]
  by_cases h : u.si = u.name
  · have huw : u = w := by
      have h2 := hw
      rw [h, hu] at h2
      exact (Unit.meta.inj (Option.some.inj h2))
    rw [To, if_pos h, huw, hwf]
    simp [h, hwsi]
  · rw [To]
    rw [if_neg h, hu, hw]
    have hsi : toSi ⟨v * u.siFactor, u.si, false⟩ (.meta w) =
        ⟨v * u.siFactor, w.si, false⟩ := by
      simp [toSi, Unit.siFactors, Unit.siName, hwf, hwo]
    simp only [hsi]
    have hne : (⟨v * u.siFactor, w.si, false⟩ : MeasureValue).unit ≠ Unit.name (.meta u) := by
      simpa [Unit.name, hwsi, hwname] using h
    rw [if_neg hne]
    simp [Unit.name, Unit.siFactors, huo]
    exact mul_div_cancel_right₀ v huf

/-- Witness for C6 at v = 7 with u = Mg (factor 1000, offset 0) whose SI
entry kg is the identity row of the concrete catalog. -/
theorem c6_witness :
    To specUm (toSi ⟨7, "Mg", false⟩ (.meta MgU)) "Mg" = .ok ⟨7, "Mg", false⟩ := by
  have h := c6_si_round_trip specUm MgU kgU 7 (by with_unfolding_all rfl)
    (by with_unfolding_all rfl) rfl rfl rfl rfl rfl (by decide)
  exact h

/-- A successful Peek candidate: the name is a prefix of the input and
the remainder starts with a separator. -/
def PeekMatch (s nm : List Char) : Prop :=
  nm <+: s ∧ startWithSeparator (s.drop nm.length) = true

/-- C7: over a name list sorted by descending length (as the catalog
builds it), `Peek` succeeds exactly when some catalog name is a prefix
of the input followed by a separator (so a candidate followed by an
alphanumeric or underscore never matches), and the returned length is
realized by such a name and maximal among all of them. -/
theorem c7_peek_longest_match (names : List (List Char)) (s : List Char)
    (hsorted : names.Pairwise (fun a b => b.length ≤ a.length)) :
    ((Peek names s).isSome = true ↔ ∃ nm ∈ names, PeekMatch s nm) ∧
    (∀ n, Peek names s = some n →
      (∃ nm ∈ names, nm.length = n ∧ PeekMatch s nm) ∧
      ∀ nm ∈ names, PeekMatch s nm → nm.length ≤ n) := by
  induction names with
  | nil => simp [Peek]
  | cons hd tl ih =>
    have hpair := (List.pairwise_cons.mp hsorted)
    have ihtl := ih hpair.2
    by_cases hlen : s.length < hd.length
    · have hnm : ¬ PeekMatch s hd := by
        intro hmatch
        exact absurd hmatch.1.length_le (by omega)
      constructor
      · rw [Peek, if_pos hlen]
        rw [ihtl.1]
        constructor
        · rintro ⟨nm, hnmtl, hm⟩
          exact ⟨nm, List.mem_cons_of_mem _ hnmtl, hm⟩
        · rintro ⟨nm, hnmm, hm⟩
          rcases List.mem_cons.mp hnmm with rfl | hnmtl
          · exact absurd hm hnm
          · exact ⟨nm, hnmtl, hm⟩
      · intro n hn
        rw [Peek, if_pos hlen] at hn
        refine ⟨?_, ?_⟩
        · obtain ⟨nm, hnmtl, hl, hm⟩ := (ihtl.2 n hn).1
          exact ⟨nm, List.mem_cons_of_mem _ hnmtl, hl, hm⟩
        · intro nm hnmm hm
          rcases List.mem_cons.mp hnmm with rfl | hnmtl
          · exact absurd hm hnm
          · exact (ihtl.2 n hn).2 nm hnmtl hm
    · by_cases hcond : s.take hd.length = hd ∧ startWithSeparator (s.drop hd.length) = true
      · have hm : PeekMatch s hd :=
          ⟨List.prefix_iff_eq_take.mpr hcond.1.symm, hcond.2⟩
        have hpk : Peek (hd :: tl) s = some hd.length := by
          rw [Peek, if_neg hlen, if_pos hcond]
        constructor
        · rw [hpk]
          simp only [Option.isSome_some, true_iff]
          exact ⟨hd, List.mem_cons_self _ _, hm⟩
        · intro n hn
          rw [hpk] at hn
          have hnval : n = hd.length := (Option.some.inj hn).symm
          subst hnval
          refine ⟨⟨hd, List.mem_cons_self _ _, rfl, hm⟩, ?_⟩
          intro nm hnmm _
          rcases List.mem_cons.mp hnmm with rfl | hnmtl
          · exact le_refl _
          · exact hpair.1 nm hnmtl
      · have hnm : ¬ PeekMatch s hd := by
          intro hmatch
          exact hcond ⟨(List.prefix_iff_eq_take.mp hmatch.1).symm, hmatch.2⟩
        have hpk : Peek (hd :: tl) s = Peek tl s := by
          rw [Peek, if_neg hlen, if_neg hcond]
        constructor
        · rw [hpk, ihtl.1]
          constructor
          · rintro ⟨nm, hnmtl, hm⟩
            exact ⟨nm, List.mem_cons_of_mem _ hnmtl, hm⟩
          · rintro ⟨nm, hnmm, hm⟩
            rcases List.mem_cons.mp hnmm with rfl | hnmtl
            · exact absurd hm hnm
            · exact ⟨nm, hnmtl, hm⟩
        · intro n hn
          rw [hpk] at hn
          refine ⟨?_, ?_⟩
          · obtain ⟨nm, hnmtl, hl, hmm⟩ := (ihtl.2 n hn).1
            exact ⟨nm, List.mem_cons_of_mem _ hnmtl, hl, hmm⟩
          · intro nm hnmm hmm
            rcases List.mem_cons.mp hnmm with rfl | hnmtl
            · exact absurd hmm hnm
            · exact (ihtl.2 n hn).2 nm hnmtl hmm

/-- Witness for C7 on the concrete catalog names and the input "kg+1":
the match has length 2 (the name kg, followed by the separator +) and no
matching catalog name is longer. -/
theorem c7_witness :
    (∃ nm ∈ specNames, nm.length = 2 ∧ PeekMatch ("kg+1".data) nm) ∧
    ∀ nm ∈ specNames, PeekMatch ("kg+1".data) nm → nm.length ≤ 2 :=
  (c7_peek_longest_match specNames ("kg+1".data) (by decide)).2 2 (by decide)

/-- C9 counterexample: the quoted inner text "1x" is not a number
followed by a known unit (no split of it is a complete numeric literal
followed by a catalog name), yet the lexer reclassifies it as
LITERALMV, not LITERALSTR as the claim requires, because the source's
measure-value parse accepts any two-token lex whose first token is a
number or whose second is a unit. -/
theorem c9_counterexample :
    lexLiteralStr specUm 3 "1x".data = Tok.LITERALMV ∧
    specNumberThenUnit specUm "1x".data = false := by
  constructor
  · rw [lexLiteralStr]
    rw [if_neg (by decide), if_pos (by decide)]
  · decide

/-- C9 (amended): a double-quoted literal is reclassified as UNIT
exactly when the inner text is a known unit name; otherwise as
LITERALMV exactly when the inner text lexes to exactly two kept tokens
of which the first is a number or the second is a unit (the source's
measure-value parse, which also accepts inputs that are not a number
followed by a unit); otherwise as LITERALSTR. -/
theorem c9_literal_reclassification (um : UnitManager) (fuel : Nat) (s : List Char) :
    (lexLiteralStr um fuel s = Tok.UNIT ↔ um.IsUnit (String.mk s) = true) ∧
    (um.IsUnit (String.mk s) = false →
      ((lexLiteralStr um fuel s = Tok.LITERALMV ↔
        (mvLvals um fuel s).length = 2 ∧
          (((mvLvals um fuel s).get? 0).map Prod.fst = some Tok.NUM ∨
           ((mvLvals um fuel s).get? 1).map Prod.fst = some Tok.UNIT)) ∧
       (lexLiteralStr um fuel s = Tok.LITERALSTR ↔
        ¬((mvLvals um fuel s).length = 2 ∧
          (((mvLvals um fuel s).get? 0).map Prod.fst = some Tok.NUM ∨
           ((mvLvals um fuel s).get? 1).map Prod.fst = some Tok.UNIT))))) := by
  unfold lexLiteralStr NewMeasureValueFromStringOk
  by_cases h1 : um.IsUnit (String.mk s) = true
  · rw [if_pos h1]
    exact ⟨iff_of_true rfl h1,
      fun hcontra => absurd (h1.symm.trans hcontra) (by decide)⟩
  · rw [if_neg h1]
    by_cases h2 : (mvLvals um fuel s).length = 2 ∧
        (((mvLvals um fuel s).get? 0).map Prod.fst = some Tok.NUM ∨
         ((mvLvals um fuel s).get? 1).map Prod.fst = some Tok.UNIT)
    · rw [if_pos h2]
      exact ⟨iff_of_false (by decide) h1,
        fun _ => ⟨iff_of_true rfl h2, iff_of_false (by decide) (not_not_intro h2)⟩⟩
    · rw [if_neg h2]
      exact ⟨iff_of_false (by decide) h1,
        fun _ => ⟨iff_of_false (by decide) h2, iff_of_true rfl h2⟩⟩

/-- Witness for C9: the inner text kg reclassifies as UNIT, and the
inner text 1kg (a number followed by a unit) as LITERALMV. -/
theorem c9_witness :
    lexLiteralStr specUm 3 "kg".data = Tok.UNIT ∧
    lexLiteralStr specUm 4 "1kg".data = Tok.LITERALMV := by
  have h1 := (c9_literal_reclassification specUm 3 "kg".data).1
  have h2 := (c9_literal_reclassification specUm 4 "1kg".data).2 (by decide)
  exact ⟨h1.mpr (by decide), h2.1.mpr (by decide)⟩

/-- C10: when the right-hand side of an assignment fails to evaluate —
as an arithmetic expression (undefined variable, incompatible units, …)
or as a function call — `visitAssignment` returns that error before any
write to the variable environment (the error short-circuits ahead of
the binding insertion, so no binding is added, removed or modified),
and `Interpret` stops with that error no matter what statements
follow. -/
theorem c10_failed_assignment_stops (um : UnitManager) (fns : UserFuncs)
    (st : IState) (x : String) (node : Node) (rest : List Node) (e : String) :
    (Node.typeOf node ≠ NodeType.NodeTypeFuncCall →
      visitAExpr um st.mvvars node = .error e →
      visitAssignment um fns st x node = .error e ∧
      Interpret um fns st (.assignment x node :: rest) = .error e) ∧
    (∀ fn args, node = .funcCall fn args →
      visitFuncCall um fns st fn args = .error e →
      visitAssignment um fns st x node = .error e ∧
      Interpret um fns st (.assignment x node :: rest) = .error e) := by
  constructor
  · intro htype herr
    have hva : visitAssignment um fns st x node = .error e := by
      cases node with
      | funcCall fn args => exact absurd rfl htype
      | mv m => simp only [visitAssignment, herr]
      | literalStr s => simp only [visitAssignment, herr]
      | var name => simp only [visitAssignment, herr]
      | binary op l r => simp only [visitAssignment, herr]
      | unary ex => simp only [visitAssignment, herr]
      | assignment y n => simp only [visitAssignment, herr]
    refine ⟨hva, ?_⟩
    simp only [Interpret, visitRoot, hva]
  · rintro fn args rfl herr
    have hva : visitAssignment um fns st x (.funcCall fn args) = .error e := by
      simp only [visitAssignment, herr]
    refine ⟨hva, ?_⟩
    simp only [Interpret, visitRoot, hva]

/-- Witness for C10: assigning an undefined variable in an empty
environment stops the run with the lookup error even though a further
well-formed assignment follows. -/
theorem c10_witness :
    visitAssignment specUm (fun _ => none) ⟨[], [], none⟩ "x" (.var "y") =
      .error ("found undefined var %s" ++ "y") ∧
    Interpret specUm (fun _ => none) ⟨[], [], none⟩
      (Node.assignment "x" (.var "y") ::
        [Node.assignment "z" (.mv ⟨1, "", true⟩)]) =
      .error ("found undefined var %s" ++ "y") := by
  exact (c10_failed_assignment_stops specUm (fun _ => none) ⟨[], [], none⟩ "x"
    (.var "y") [Node.assignment "z" (.mv ⟨1, "", true⟩)]
    ("found undefined var %s" ++ "y")).1 (by decide) (by rfl)

end Calcu
